import Mathlib

/-!
Shallow embedding of the `myradio` Go client library (files `tracks.go` and
`user.go`) together with proofs about the claims of its specification.

Machine integers (`uint64`, `uint`) are modelled as `Nat` with explicit
reduction `% 2^64` wherever the Go code performs arithmetic that can wrap.
Fallible Go functions returning `(value, error)` pairs are modelled with
`Except`, or with `GoReturn` when the Go function uses named result values
and returns the value alongside the error.  A dereference of a nil payload
pointer is modelled by the distinguished outcome `panicked`.
-/

namespace Myradio

/-- 2^64, the modulus of Go's `uint64` arithmetic. -/
def W64 : Nat := 18446744073709551616

/-! ## Model of Go's `fmt.Sscan` for three `uint64` operands

`Track.LengthSec` calls `fmt.Sscan(str, &hours, &minutes, &seconds)`.
Go's scanner skips spaces before each operand and reads each operand with
the `%v` integer syntax: a decimal numeral, or, after a leading `0`, an
octal numeral (with `0x`/`0o`/`0b` prefixes selecting hexadecimal, octal
and binary).  A value that does not fit in 64 bits is a range error.
Digit-separator underscores, which Go's scanner additionally accepts, are
not modelled (no claim concerns them). -/

/-- The ASCII whitespace characters skipped by Go's scanner before an
operand (`unicode.IsSpace`, restricted to ASCII). -/
def goSpace (c : Char) : Bool :=
  c == ' ' || c == '\t' || c == '\n' || c == '\x0b' || c == '\x0c' || c == '\r'

def isBinDigit (c : Char) : Bool := c == '0' || c == '1'

def isOctDigit (c : Char) : Bool := '0' ≤ c && c ≤ '7'

def isHexDigit (c : Char) : Bool :=
  c.isDigit || ('a' ≤ c && c ≤ 'f') || ('A' ≤ c && c ≤ 'F')

/-- Numeric value of one digit character (decimal digits and hex letters). -/
def digitVal (c : Char) : Nat :=
  if c.isDigit then c.toNat - 48
  else if 'a' ≤ c && c ≤ 'f' then c.toNat - 87
  else if 'A' ≤ c && c ≤ 'F' then c.toNat - 55
  else 0

/-- Value of a digit string in the given base (most significant first). -/
def digitsVal (base : Nat) (ds : List Char) : Nat :=
  ds.foldl (fun acc c => acc * base + digitVal c) 0

/-- Errors produced by the scan underlying `Track.LengthSec`
(`io.ErrUnexpectedEOF`, "expected integer", a token `strconv.ParseUint`
rejects, and "value out of range"). -/
inductive ScanErr where
  | unexpectedEOF
  | expectedInteger
  | badToken
  | rangeErr
deriving DecidableEq, Repr

/-- `strconv.ParseUint`'s range check: the scanned value must fit in 64 bits. -/
def rangeCheck (v : Nat) (rest : List Char) : Except ScanErr (Nat × List Char) :=
  if v < W64 then .ok (v, rest) else .error .rangeErr

/-- Scan the digits following a `0x`/`0o`/`0b` base prefix: at least one
digit of the base is required. -/
def scanPrefixed (base : Nat) (isDig : Char → Bool) (cs : List Char) :
    Except ScanErr (Nat × List Char) :=
  match cs.takeWhile isDig with
  | [] => .error .badToken
  | ds => rangeCheck (digitsVal base ds) (cs.dropWhile isDig)

/-- Scan the rest of a token that began with `0`: `0x`, `0o`, `0b` select
hexadecimal, octal and binary; otherwise the bare leading zero makes the
token octal ("the zero is found"), following octal digits extend it and
anything else ends it at value 0. -/
def scanZero : List Char → Except ScanErr (Nat × List Char)
  | [] => .ok (0, [])
  | c2 :: rest2 =>
    if c2 = 'x' ∨ c2 = 'X' then scanPrefixed 16 isHexDigit rest2
    else if c2 = 'o' ∨ c2 = 'O' then scanPrefixed 8 isOctDigit rest2
    else if c2 = 'b' ∨ c2 = 'B' then scanPrefixed 2 isBinDigit rest2
    else
      rangeCheck (digitsVal 8 ((c2 :: rest2).takeWhile isOctDigit))
        ((c2 :: rest2).dropWhile isOctDigit)

/-- Read one numeral after whitespace has been skipped: a leading `0`
defers to `scanZero`, any other digit starts a decimal numeral. -/
def scanNum : List Char → Except ScanErr (Nat × List Char)
  | [] => .error .unexpectedEOF
  | c :: rest =>
    if c = '0' then scanZero rest
    else if c.isDigit then
      rangeCheck (digitsVal 10 ((c :: rest).takeWhile Char.isDigit))
        ((c :: rest).dropWhile Char.isDigit)
    else .error .expectedInteger

/-- Scan one `uint64` operand the way Go's `fmt` scanner reads `%v`:
skip whitespace, then read a numeral.  Returns the value and the unread
remainder. -/
def scanUint64 (cs : List Char) : Except ScanErr (Nat × List Char) :=
  scanNum (cs.dropWhile goSpace)

/-- A canonical decimal numeral: non-empty, all decimal digits, and no
redundant leading zero (a leading zero would make Go scan it as octal). -/
def canonNumeral (ds : List Char) : Prop :=
  (∀ c ∈ ds, c.isDigit = true) ∧ ds ≠ [] ∧ (ds.head? = some '0' → ds = ['0'])

/-- `fmt.Sscan(s, &hours, &minutes, &seconds)`: three successive operand
scans; input left over after the third operand is not an error. -/
def sscan3 (s : String) : Except ScanErr (Nat × Nat × Nat) := do
  let (h, r1) ← scanUint64 s.data
  let (m, r2) ← scanUint64 r1
  let (sec, _) ← scanUint64 r2
  pure (h, m, sec)

/-- `strings.Replace(s, ":", " ", -1)`: every colon becomes a space. -/
def replaceColons (s : String) : String :=
  ⟨s.data.map (fun c => if c = ':' then ' ' else c)⟩

/-! ## Track and Album records (`tracks.go`) -/

/-- `Track` from `tracks.go`.  The struct tags there are unquoted and thus
inert, so the JSON keys are the Go field names; `uint64` fields are `Nat`
(kept below 2^64 by decoding).  The source field `Type` is rendered
`TrackType` because `Type` is reserved in Lean. -/
structure Track where
  ID : Nat
  Title : String
  Artist : String
  TrackType : String
  Length : String
  Intro : Nat
  IsClean : Bool
  IsDigitised : Bool
deriving DecidableEq, Repr

/-- `Album` from `tracks.go` (tags unquoted and inert, as for `Track`). -/
structure Album where
  ID : Nat
  Title : String
  Artist : String
  DateAdded : String
  DateReleased : String
  LastModified : String
  CDID : String
  Location : String
  ShelfLetter : String
  ShelfNumber : String
  Format : String
  Medium : String
  AddingMember : Nat
  EditingMember : Nat
  RecordLabel : String
  Status : String
deriving DecidableEq, Repr

/-- A track whose only relevant field is its length string. -/
def mkTrack (len : String) : Track :=
  { ID := 0, Title := "", Artist := "", TrackType := "", Length := len,
    Intro := 0, IsClean := false, IsDigitised := false }

/-- A track whose only relevant field is its intro length. -/
def mkTrackIntro (intro : Nat) : Track :=
  { ID := 0, Title := "", Artist := "", TrackType := "", Length := "",
    Intro := intro, IsClean := false, IsDigitised := false }

/-- `Track.LengthSec` from `tracks.go`: scan the colon-substituted length
string as three integers and return `(hours*60*60) + (minutes*60) + seconds`
in `uint64` arithmetic (each operation wraps modulo 2^64). -/
def Track.LengthSec (t : Track) : Except ScanErr Nat :=
  match sscan3 (replaceColons t.Length) with
  | .error e => .error e
  | .ok (hours, minutes, seconds) =>
    let a := hours * 60 % W64
    let b := a * 60 % W64
    let c := minutes * 60 % W64
    .ok (((b + c) % W64 + seconds) % W64)

/-- `Track.LengthUsec` from `tracks.go`: `secs * 1000000` in `uint64`
arithmetic; the error of `LengthSec` is returned unchanged. -/
def Track.LengthUsec (t : Track) : Except ScanErr Nat :=
  match t.LengthSec with
  | .error e => .error e
  | .ok secs => .ok (secs * 1000000 % W64)

/-- `Track.IntroUsec` from `tracks.go`: `t.Intro * 1000000` in `uint64`
arithmetic; the function is total (no error path). -/
def Track.IntroUsec (t : Track) : Nat :=
  t.Intro * 1000000 % W64

/-! ## Model of `time.Time` and the two fixed `time.Parse` layouts -/

/-- The observable part of a Go `time.Time` for this library: year, month,
day, hour, minute and second.  The two `time.Parse` layouts used by the
code carry no seconds (their values always have second 0); values decoded
from JSON by `time.Time`'s own unmarshaler (RFC 3339) carry seconds too.
Sub-second precision and the zone offset are validated where they may
occur but not recorded: no claim observes them. -/
structure GoTime where
  year : Nat
  month : Nat
  day : Nat
  hour : Nat
  minute : Nat
  second : Nat
deriving DecidableEq, Repr

/-- Go's zero `time.Time`: January 1, year 1, 00:00:00 UTC. -/
def GoTime.zero : GoTime := ⟨1, 1, 1, 0, 0, 0⟩

def isLeapYear (y : Nat) : Bool :=
  y % 4 == 0 && (y % 100 != 0 || y % 400 == 0)

def daysInMonth (y m : Nat) : Nat :=
  if m = 2 then (if isLeapYear y then 29 else 28)
  else if m = 4 ∨ m = 6 ∨ m = 9 ∨ m = 11 then 30
  else 31

/-- Read exactly two digit characters (a fixed-width number in a layout). -/
def digit2 : List Char → Option (Nat × List Char)
  | a :: b :: rest =>
    if a.isDigit && b.isDigit then
      some ((a.toNat - 48) * 10 + (b.toNat - 48), rest)
    else none
  | _ => none

/-- Read exactly four digit characters (the `2006` year of a layout). -/
def digit4 (cs : List Char) : Option (Nat × List Char) :=
  match digit2 cs with
  | some (hi, rest) =>
    match digit2 rest with
    | some (lo, rest2) => some (hi * 100 + lo, rest2)
    | none => none
  | none => none

/-- Read one or two digit characters (the non-zero-padded `15` hour). -/
def digit12 : List Char → Option (Nat × List Char)
  | a :: b :: rest =>
    if a.isDigit then
      if b.isDigit then some ((a.toNat - 48) * 10 + (b.toNat - 48), rest)
      else some (a.toNat - 48, b :: rest)
    else none
  | a :: [] => if a.isDigit then some (a.toNat - 48, []) else none
  | [] => none

/-- Match one literal layout character. -/
def lit (c : Char) : List Char → Option (List Char)
  | x :: rest => if x = c then some rest else none
  | [] => none

/-- `time.Parse("2006-01-02", s)`: four-digit year, two-digit month and
day, nothing left over; the month and the day must be in range.  The
result is midnight UTC of that date; failure is `none`. -/
def timeParseYMD (s : String) : Option GoTime :=
  match digit4 s.data with
  | none => none
  | some (y, r1) =>
    match lit '-' r1 with
    | none => none
    | some r2 =>
      match digit2 r2 with
      | none => none
      | some (mo, r3) =>
        match lit '-' r3 with
        | none => none
        | some r4 =>
          match digit2 r4 with
          | none => none
          | some (d, r5) =>
            if r5 = [] ∧ 1 ≤ mo ∧ mo ≤ 12 ∧ 1 ≤ d ∧ d ≤ daysInMonth y mo then
              some ⟨y, mo, d, 0, 0, 0⟩
            else none

/-- `time.Parse("02/01/2006 15:04", s)`: two-digit day and month,
four-digit year, one-or-two-digit 24-hour hour, two-digit minute,
nothing left over; all components must be in range. -/
def timeParseDMYHM (s : String) : Option GoTime :=
  match digit2 s.data with
  | none => none
  | some (d, r1) =>
    match lit '/' r1 with
    | none => none
    | some r2 =>
      match digit2 r2 with
      | none => none
      | some (mo, r3) =>
        match lit '/' r3 with
        | none => none
        | some r4 =>
          match digit4 r4 with
          | none => none
          | some (y, r5) =>
            match lit ' ' r5 with
            | none => none
            | some r6 =>
              match digit12 r6 with
              | none => none
              | some (h, r7) =>
                match lit ':' r7 with
                | none => none
                | some r8 =>
                  match digit2 r8 with
                  | none => none
                  | some (mi, r9) =>
                    if r9 = [] ∧ 1 ≤ mo ∧ mo ≤ 12 ∧ 1 ≤ d ∧
                        d ≤ daysInMonth y mo ∧ h ≤ 23 ∧ mi ≤ 59 then
                      some ⟨y, mo, d, h, mi, 0⟩
                    else none

/-- The trailing zone offset of an RFC 3339 string: `Z`, or a sign
followed by a two-digit hour, `:` and a two-digit minute, ending the
string.  The offset is validated but not recorded. -/
def rfcOffset : List Char → Bool
  | ['Z'] => true
  | c :: rest =>
    if c = '+' ∨ c = '-' then
      match digit2 rest with
      | none => false
      | some (oh, r1) =>
        match lit ':' r1 with
        | none => false
        | some r2 =>
          match digit2 r2 with
          | none => false
          | some (om, r3) => r3 = [] && oh ≤ 23 && om ≤ 59
    else false
  | [] => false

/-- What may follow the seconds of an RFC 3339 string: an optional
fractional second (`.` or `,` and at least one digit, accepted by Go's
parser even though the layout has none; validated, not recorded), then
the zone offset. -/
def rfcTail (cs : List Char) : Bool :=
  match cs with
  | '.' :: rest =>
    match rest.takeWhile Char.isDigit with
    | [] => false
    | _ => rfcOffset (rest.dropWhile Char.isDigit)
  | ',' :: rest =>
    match rest.takeWhile Char.isDigit with
    | [] => false
    | _ => rfcOffset (rest.dropWhile Char.isDigit)
  | _ => rfcOffset cs

/-- The time format `time.Time`'s `UnmarshalJSON` accepts: RFC 3339
(`2006-01-02T15:04:05Z07:00` with an optional fractional second), all
components range-checked. -/
def timeParseRFC3339 (s : String) : Option GoTime :=
  match digit4 s.data with
  | none => none
  | some (y, r1) =>
    match lit '-' r1 with
    | none => none
    | some r2 =>
      match digit2 r2 with
      | none => none
      | some (mo, r3) =>
        match lit '-' r3 with
        | none => none
        | some r4 =>
          match digit2 r4 with
          | none => none
          | some (d, r5) =>
            match lit 'T' r5 with
            | none => none
            | some r6 =>
              match digit2 r6 with
              | none => none
              | some (h, r7) =>
                match lit ':' r7 with
                | none => none
                | some r8 =>
                  match digit2 r8 with
                  | none => none
                  | some (mi, r9) =>
                    match lit ':' r9 with
                    | none => none
                    | some r10 =>
                      match digit2 r10 with
                      | none => none
                      | some (sec, r11) =>
                        if rfcTail r11 = true ∧ 1 ≤ mo ∧ mo ≤ 12 ∧ 1 ≤ d ∧
                            d ≤ daysInMonth y mo ∧ h ≤ 23 ∧ mi ≤ 59 ∧ sec ≤ 59 then
                          some ⟨y, mo, d, h, mi, sec⟩
                        else none

/-! ## JSON payloads and the transport (`Session.apiRequest`)

`Session` and `apiRequest` are repository code outside the reviewed files.
Modelled from the spec: `apiRequest` performs an authenticated call for a
path and returns either an error, or a raw JSON payload that is possibly
absent (a nil `*json.RawMessage`) to denote "no data".  A present payload
is raw bytes and is either well-formed JSON or malformed. -/

/-- A JSON value.  Numbers are restricted to integers: every numeric field
decoded by this library is integral. -/
inductive Json where
  | null
  | bool (b : Bool)
  | num (n : Int)
  | str (s : String)
  | arr (elems : List Json)
  | obj (fields : List (String × Json))
deriving Inhabited, Repr

/-- A present raw payload: bytes that parse as the JSON value `j`, or
bytes that are not well-formed JSON. -/
inductive RawPayload where
  | json (j : Json)
  | malformed
deriving Inhabited, Repr

/-- One transport response: an error, a nil payload with nil error, or a
present payload. -/
inductive ApiResponse where
  | fail (msg : String)
  | missing
  | payload (p : RawPayload)
deriving Inhabited, Repr

/-- The `Session` collaborator, reduced to its `apiRequest` method
(path to response; the optional request parameters, always nil in the
reviewed calls, are omitted). -/
structure Session where
  apiRequest : String → ApiResponse

/-- A session that gives the same response to every request. -/
def constSession (r : ApiResponse) : Session := ⟨fun _ => r⟩

/-- Errors of `json.Unmarshal`: malformed input (`*json.SyntaxError`) or a
value of the wrong shape for the target Go type
(`*json.UnmarshalTypeError`). -/
inductive DecodeErr where
  | syntaxErr
  | typeMismatch (goType : String) (value : Json)
deriving Repr

/-- Errors surfaced to callers of the accessors.  Distinct constructors
model distinct Go error values: the sentinel errors created by
`errors.New` in `user.go` are never equal to a transport, decode or
date-parse error. -/
inductive ApiError where
  | transport (msg : String)
  | noBioSet
  | noProfilePicture
  | decode (e : DecodeErr)
  | dateParse (input : String)
deriving Repr

/-! ## Decoding (`json.Unmarshal`)

Decoders are written per target type from the struct definitions in the
source.  JSON `null` is a no-op for every target and therefore decodes to
the target's zero value.  Field lookup: a tagged field's wire key is its
tag name (`Officership` and `Photo` have well-formed tags); an untagged
exported field — the derived `time.Time` fields of `Officership` and
`Photo`, and every `Track`/`Album` field, whose unquoted tags are inert —
is matched by its Go field name, exactly or case-insensitively, and a
`time.Time` so matched is filled through its own RFC 3339 unmarshaler.
Simplifications (exercised by no claim): lookup takes the first matching
key rather than Go's last, tagged keys are matched exactly (every claim's
payload uses the exact wire keys), and a field type error aborts the
decode at once rather than being collected while later fields are still
filled. -/

/-- Look up a JSON object key exactly. -/
def jField (kvs : List (String × Json)) (key : String) : Option Json :=
  (kvs.find? (fun kv => kv.1 == key)).map (·.2)

/-- ASCII case-folding character equality, as `encoding/json`'s fold
compares field names (its non-ASCII simple fold is not exercised by any
key here). -/
def charFoldEq (a b : Char) : Bool :=
  a == b || (a.isUpper && a.toNat + 32 == b.toNat)
    || (b.isUpper && b.toNat + 32 == a.toNat)

def listFoldEq : List Char → List Char → Bool
  | [], [] => true
  | x :: xs, y :: ys => charFoldEq x y && listFoldEq xs ys
  | _, _ => false

/-- Case-insensitive string equality (ASCII fold). -/
def strFoldEq (a b : String) : Bool := listFoldEq a.data b.data

/-- Look up a JSON object key as Go matches untagged fields: an exact
match first, then a case-insensitive one. -/
def jFieldCI (kvs : List (String × Json)) (key : String) : Option Json :=
  match jField kvs key with
  | some v => some v
  | none => (kvs.find? (fun kv => strFoldEq kv.1 key)).map (·.2)

/-- Decode a JSON value into a Go `string`. -/
def decodeString (j : Json) : Except DecodeErr String :=
  match j with
  | .str s => .ok s
  | .null => .ok ""
  | v => .error (.typeMismatch "string" v)

/-- Decode a JSON value into a Go `uint64`/`uint`: an integral number in
range; a negative or too-large number is a type error. -/
def decodeUint (j : Json) : Except DecodeErr Nat :=
  match j with
  | .num n => if 0 ≤ n ∧ n < (W64 : Int) then .ok n.toNat
      else .error (.typeMismatch "uint64" j)
  | .null => .ok 0
  | v => .error (.typeMismatch "uint64" v)

/-- Decode a field tagged `,string` into a `uint`: the JSON value must be
a string whose contents are a decimal number in range. -/
def decodeUintString (j : Json) : Except DecodeErr Nat :=
  match j with
  | .str s =>
    match s.toNat? with
    | some n => if n < W64 then .ok n else .error (.typeMismatch "uint" j)
    | none => .error (.typeMismatch "uint" j)
  | .null => .ok 0
  | v => .error (.typeMismatch "uint" v)

/-- Decode a JSON value into a Go `bool`. -/
def decodeBool (j : Json) : Except DecodeErr Bool :=
  match j with
  | .bool b => .ok b
  | .null => .ok false
  | v => .error (.typeMismatch "bool" v)

/-- Decode a JSON value into a Go `time.Time` through the type's own
`UnmarshalJSON`: the value must be a JSON string in RFC 3339 format
(`null` is a no-op, leaving the zero time). -/
def decodeGoTime (j : Json) : Except DecodeErr GoTime :=
  match j with
  | .str s =>
    match timeParseRFC3339 s with
    | some t => .ok t
    | none => .error (.typeMismatch "time.Time" j)
  | .null => .ok GoTime.zero
  | v => .error (.typeMismatch "time.Time" v)

/-- Decode an optional field: a missing key leaves the zero value. -/
def decodeFieldD {α : Type} (dec : Json → Except DecodeErr α)
    (o : Option Json) (dflt : α) : Except DecodeErr α :=
  match o with
  | none => .ok dflt
  | some j => dec j

/-! ## User records (`user.go`) -/

/-- `Officership` from `user.go`.  `FromDate` and `TillDate` have no tag:
`encoding/json` fills them only from a key matching the Go field name
(exactly or case-insensitively) through `time.Time`'s RFC 3339
unmarshaler, and otherwise leaves them at their zero value; the loop in
`GetUserOfficerships` then overwrites them from the raw date strings. -/
structure Officership where
  OfficerId : Nat
  OfficerName : String
  TeamId : Nat
  FromDateRaw : String
  FromDate : GoTime
  TillDateRaw : String
  TillDate : GoTime
deriving DecidableEq, Repr

/-- `Photo` from `user.go`.  `DateAdded` has no tag: `encoding/json`
fills it only from a key matching the Go field name (exactly or
case-insensitively) through `time.Time`'s RFC 3339 unmarshaler;
`GetUserProfilePhoto` overwrites it after decoding in any case. -/
structure Photo where
  PhotoId : Nat
  DateAddedRaw : String
  DateAdded : GoTime
  Format : String
  Owner : Nat
  Url : String
deriving DecidableEq, Repr

/-- The zero `Photo`. -/
def Photo.zero : Photo := ⟨0, "", GoTime.zero, "", 0, ""⟩

/-- Decode one `Officership` from its JSON object: keys `officerid` and
`teamid` carry `,string` numbers, `officer_name`, `from_date` and
`till_date` are strings, and the untagged `FromDate` and `TillDate`
fields are filled from keys matching those Go field names (exactly or
case-insensitively) through `time.Time`'s unmarshaler, staying zero when
no such key is present. -/
def officershipFromJson (j : Json) : Except DecodeErr Officership :=
  match j with
  | .null => .ok ⟨0, "", 0, "", GoTime.zero, "", GoTime.zero⟩
  | .obj kvs =>
    match decodeFieldD decodeUintString (jField kvs "officerid") 0 with
    | .error e => .error e
    | .ok officerId =>
      match decodeFieldD decodeString (jField kvs "officer_name") "" with
      | .error e => .error e
      | .ok officerName =>
        match decodeFieldD decodeUintString (jField kvs "teamid") 0 with
        | .error e => .error e
        | .ok teamId =>
          match decodeFieldD decodeString (jField kvs "from_date") "" with
          | .error e => .error e
          | .ok fromRaw =>
            match decodeFieldD decodeString (jField kvs "till_date") "" with
            | .error e => .error e
            | .ok tillRaw =>
              match decodeFieldD decodeGoTime (jFieldCI kvs "FromDate") GoTime.zero with
              | .error e => .error e
              | .ok fromDate =>
                match decodeFieldD decodeGoTime (jFieldCI kvs "TillDate") GoTime.zero with
                | .error e => .error e
                | .ok tillDate =>
                  .ok ⟨officerId, officerName, teamId, fromRaw, fromDate,
                    tillRaw, tillDate⟩
  | v => .error (.typeMismatch "myradio.Officership" v)

/-- Decode a JSON array element-wise into `[]Officership`. -/
def officershipsFromList : List Json → Except DecodeErr (List Officership)
  | [] => .ok []
  | j :: rest =>
    match officershipFromJson j with
    | .error e => .error e
    | .ok o =>
      match officershipsFromList rest with
      | .error e => .error e
      | .ok os => .ok (o :: os)

/-- Decode a JSON value into `[]Officership`: an array, or `null` for the
nil slice. -/
def officershipsFromJson (j : Json) : Except DecodeErr (List Officership) :=
  match j with
  | .null => .ok []
  | .arr es => officershipsFromList es
  | v => .error (.typeMismatch "[]myradio.Officership" v)

/-- An officership JSON value that uses only the documented wire keys: no
key of its object matches the untagged `FromDate`/`TillDate` field names,
so decoding leaves the derived dates at their zero value. -/
def officershipWireOnly (x : Json) : Prop :=
  match x with
  | .obj kvs => jFieldCI kvs "FromDate" = none ∧ jFieldCI kvs "TillDate" = none
  | _ => True

/-- An officerships payload whose entries all use only the wire keys. -/
def officershipsWireOnly (j : Json) : Prop :=
  match j with
  | .arr es => ∀ x ∈ es, officershipWireOnly x
  | _ => True

/-- Decode one `Photo` from its JSON object: `photoid` and `owner` are
numbers, `date_added`, `format` and `url` are strings, and the untagged
`DateAdded` is filled from a key matching that Go field name through
`time.Time`'s unmarshaler, staying zero when no such key is present. -/
def photoFromJson (j : Json) : Except DecodeErr Photo :=
  match j with
  | .null => .ok Photo.zero
  | .obj kvs =>
    match decodeFieldD decodeUint (jField kvs "photoid") 0 with
    | .error e => .error e
    | .ok photoId =>
      match decodeFieldD decodeString (jField kvs "date_added") "" with
      | .error e => .error e
      | .ok dateAddedRaw =>
        match decodeFieldD decodeString (jField kvs "format") "" with
        | .error e => .error e
        | .ok format =>
          match decodeFieldD decodeUint (jField kvs "owner") 0 with
          | .error e => .error e
          | .ok owner =>
            match decodeFieldD decodeString (jField kvs "url") "" with
            | .error e => .error e
            | .ok url =>
              match decodeFieldD decodeGoTime (jFieldCI kvs "DateAdded") GoTime.zero with
              | .error e => .error e
              | .ok dateAdded =>
                .ok ⟨photoId, dateAddedRaw, dateAdded, format, owner, url⟩
  | v => .error (.typeMismatch "myradio.Photo" v)

/-- Decode one `Track`: its tags are inert, so matching is by Go field
name (case-insensitively, as `encoding/json` falls back to). -/
def trackFromJson (j : Json) : Except DecodeErr Track :=
  match j with
  | .null => .ok (mkTrack "")
  | .obj kvs =>
    match decodeFieldD decodeUint (jFieldCI kvs "ID") 0 with
    | .error e => .error e
    | .ok id =>
      match decodeFieldD decodeString (jFieldCI kvs "Title") "" with
      | .error e => .error e
      | .ok title =>
        match decodeFieldD decodeString (jFieldCI kvs "Artist") "" with
        | .error e => .error e
        | .ok artist =>
          match decodeFieldD decodeString (jFieldCI kvs "Type") "" with
          | .error e => .error e
          | .ok ttype =>
            match decodeFieldD decodeString (jFieldCI kvs "Length") "" with
            | .error e => .error e
            | .ok length =>
              match decodeFieldD decodeUint (jFieldCI kvs "Intro") 0 with
              | .error e => .error e
              | .ok intro =>
                match decodeFieldD decodeBool (jFieldCI kvs "IsClean") false with
                | .error e => .error e
                | .ok isClean =>
                  match decodeFieldD decodeBool (jFieldCI kvs "IsDigitised") false with
                  | .error e => .error e
                  | .ok isDigitised =>
                    .ok ⟨id, title, artist, ttype, length, intro, isClean, isDigitised⟩
  | v => .error (.typeMismatch "myradio.Track" v)

/-- Decode one `Album`: its tags are inert, so matching is by Go field
name, as for `Track`. -/
def albumFromJson (j : Json) : Except DecodeErr Album :=
  match j with
  | .null => .ok ⟨0, "", "", "", "", "", "", "", "", "", "", "", 0, 0, "", ""⟩
  | .obj kvs =>
    match decodeFieldD decodeUint (jFieldCI kvs "ID") 0 with
    | .error e => .error e
    | .ok id =>
      match decodeFieldD decodeString (jFieldCI kvs "Title") "" with
      | .error e => .error e
      | .ok title =>
        match decodeFieldD decodeString (jFieldCI kvs "Artist") "" with
        | .error e => .error e
        | .ok artist =>
          match decodeFieldD decodeString (jFieldCI kvs "DateAdded") "" with
          | .error e => .error e
          | .ok dateAdded =>
            match decodeFieldD decodeString (jFieldCI kvs "DateReleased") "" with
            | .error e => .error e
            | .ok dateReleased =>
              match decodeFieldD decodeString (jFieldCI kvs "LastModified") "" with
              | .error e => .error e
              | .ok lastModified =>
                match decodeFieldD decodeString (jFieldCI kvs "CDID") "" with
                | .error e => .error e
                | .ok cdid =>
                  match decodeFieldD decodeString (jFieldCI kvs "Location") "" with
                  | .error e => .error e
                  | .ok location =>
                    match decodeFieldD decodeString (jFieldCI kvs "ShelfLetter") "" with
                    | .error e => .error e
                    | .ok shelfLetter =>
                      match decodeFieldD decodeString (jFieldCI kvs "ShelfNumber") "" with
                      | .error e => .error e
                      | .ok shelfNumber =>
                        match decodeFieldD decodeString (jFieldCI kvs "Format") "" with
                        | .error e => .error e
                        | .ok format =>
                          match decodeFieldD decodeString (jFieldCI kvs "Medium") "" with
                          | .error e => .error e
                          | .ok medium =>
                            match decodeFieldD decodeUint (jFieldCI kvs "AddingMember") 0 with
                            | .error e => .error e
                            | .ok addingMember =>
                              match decodeFieldD decodeUint (jFieldCI kvs "EditingMember") 0 with
                              | .error e => .error e
                              | .ok editingMember =>
                                match decodeFieldD decodeString (jFieldCI kvs "RecordLabel") "" with
                                | .error e => .error e
                                | .ok recordLabel =>
                                  match decodeFieldD decodeString (jFieldCI kvs "Status") "" with
                                  | .error e => .error e
                                  | .ok status =>
                                    .ok ⟨id, title, artist, dateAdded, dateReleased,
                                      lastModified, cdid, location, shelfLetter,
                                      shelfNumber, format, medium, addingMember,
                                      editingMember, recordLabel, status⟩
  | v => .error (.typeMismatch "myradio.Album" v)

/-! ## Accessors -/

/-- Result of a Go function returning `(pointer-or-value, error)` where
only one of the two is meaningful.  `panicked` models a run-time panic:
every reviewed getter dereferences the payload pointer (`*data`), so a
nil payload that is not checked first is a nil-pointer dereference. -/
inductive Outcome (α : Type) where
  | ok (val : α)
  | error (e : ApiError)
  | panicked
deriving Repr

/-- Result of a Go function with named results `(value, err)`: the value
is returned alongside the (possibly nil) error. -/
inductive GoReturn (α : Type) where
  | ret (val : α) (err : Option ApiError)
  | panicked
deriving Repr

/-- `fmt.Sprintf("/track/%d", trackid)`. -/
def trackPath (trackid : Nat) : String := "/track/" ++ toString trackid

/-- `fmt.Sprintf("/track/%d/title", trackid)`. -/
def trackTitlePath (trackid : Nat) : String :=
  "/track/" ++ toString trackid ++ "/title"

/-- `fmt.Sprintf("/track/%d/album", trackid)`. -/
def trackAlbumPath (trackid : Nat) : String :=
  "/track/" ++ toString trackid ++ "/album"

/-- `fmt.Sprintf("/user/%d/bio/", id)`. -/
def userBioPath (id : Int) : String := "/user/" ++ toString id ++ "/bio/"

/-- `fmt.Sprintf("/user/%d/name/", id)`. -/
def userNamePath (id : Int) : String := "/user/" ++ toString id ++ "/name/"

/-- `fmt.Sprintf("/user/%d/profilephoto/", id)`. -/
def userProfilePhotoPath (id : Int) : String :=
  "/user/" ++ toString id ++ "/profilephoto/"

/-- `fmt.Sprintf("/user/%d/officerships/", id)`. -/
def userOfficershipsPath (id : Int) : String :=
  "/user/" ++ toString id ++ "/officerships/"

/-- `Session.GetTrack` from `tracks.go`, paired with the list of paths it
requests from the transport.  A transport error and a decode error are
returned unchanged; a nil payload is dereferenced undiagnosed. -/
def Session.GetTrack (s : Session) (trackid : Nat) : Outcome Track × List String :=
  let path := trackPath trackid
  (match s.apiRequest path with
   | .fail msg => .error (.transport msg)
   | .missing => .panicked
   | .payload .malformed => .error (.decode .syntaxErr)
   | .payload (.json j) =>
     match trackFromJson j with
     | .ok t => .ok t
     | .error e => .error (.decode e),
   [path])

/-- `Session.GetTrackTitle` from `tracks.go`, with its request log. -/
def Session.GetTrackTitle (s : Session) (trackid : Nat) : Outcome String × List String :=
  let path := trackTitlePath trackid
  (match s.apiRequest path with
   | .fail msg => .error (.transport msg)
   | .missing => .panicked
   | .payload .malformed => .error (.decode .syntaxErr)
   | .payload (.json j) =>
     match decodeString j with
     | .ok title => .ok title
     | .error e => .error (.decode e),
   [path])

/-- `Session.GetTrackAlbum` from `tracks.go`, with its request log. -/
def Session.GetTrackAlbum (s : Session) (trackid : Nat) : Outcome Album × List String :=
  let path := trackAlbumPath trackid
  (match s.apiRequest path with
   | .fail msg => .error (.transport msg)
   | .missing => .panicked
   | .payload .malformed => .error (.decode .syntaxErr)
   | .payload (.json j) =>
     match albumFromJson j with
     | .ok a => .ok a
     | .error e => .error (.decode e),
   [path])

/-- `Track.GetAlbum` from `tracks.go`: forwards to `GetTrackAlbum` with
the track's own ID. -/
def Track.GetAlbum (t : Track) (s : Session) : Outcome Album × List String :=
  s.GetTrackAlbum t.ID

/-- `Session.GetUserBio` from `user.go`: a transport error returns; a nil
payload becomes the error "No bio set"; otherwise the payload decodes as
a string. -/
def Session.GetUserBio (s : Session) (id : Int) : GoReturn String :=
  match s.apiRequest (userBioPath id) with
  | .fail msg => .ret "" (some (.transport msg))
  | .missing => .ret "" (some .noBioSet)
  | .payload .malformed => .ret "" (some (.decode .syntaxErr))
  | .payload (.json j) =>
    match decodeString j with
    | .ok bio => .ret bio none
    | .error e => .ret "" (some (.decode e))

/-- `Session.GetUserName` from `user.go`: no nil check — a nil payload is
dereferenced (`*data`), a nil-pointer panic. -/
def Session.GetUserName (s : Session) (id : Int) : GoReturn String :=
  match s.apiRequest (userNamePath id) with
  | .fail msg => .ret "" (some (.transport msg))
  | .missing => .panicked
  | .payload .malformed => .ret "" (some (.decode .syntaxErr))
  | .payload (.json j) =>
    match decodeString j with
    | .ok name => .ret name none
    | .error e => .ret "" (some (.decode e))

/-- `Session.GetUserProfilePhoto` from `user.go`: a nil payload becomes
the error "No profile picture set"; on a successful decode the raw
date-added string is parsed with layout `02/01/2006 15:04`; on a parse
failure the derived date is the zero time and the parse error is
returned.  (On a decode error the partially-filled photo Go would return
is modelled as the zero photo; no claim inspects it.) -/
def Session.GetUserProfilePhoto (s : Session) (id : Int) : GoReturn Photo :=
  match s.apiRequest (userProfilePhotoPath id) with
  | .fail msg => .ret Photo.zero (some (.transport msg))
  | .missing => .ret Photo.zero (some .noProfilePicture)
  | .payload .malformed => .ret Photo.zero (some (.decode .syntaxErr))
  | .payload (.json j) =>
    match photoFromJson j with
    | .error e => .ret Photo.zero (some (.decode e))
    | .ok p =>
      match timeParseDMYHM p.DateAddedRaw with
      | some t => .ret { p with DateAdded := t } none
      | none => .ret { p with DateAdded := GoTime.zero }
          (some (.dateParse p.DateAddedRaw))

/-- The till-date half of one loop iteration in `GetUserOfficerships`
(`user.go` lines 84-89): when the till-date raw string is non-empty, the
parsed date is stored in `TillDate` — but, as in the source (line 85),
the string parsed is `v.FromDateRaw`, not `v.TillDateRaw`.  An assignment
`x, err = time.Parse(...)` stores the zero time in `x` when it fails. -/
def processTill (o : Officership) : Officership × Option ApiError :=
  if o.TillDateRaw = "" then (o, none)
  else
    match timeParseYMD o.FromDateRaw with
    | some t => ({ o with TillDate := t }, none)
    | none => ({ o with TillDate := GoTime.zero }, some (.dateParse o.FromDateRaw))

/-- One full iteration of the loop in `GetUserOfficerships` (`user.go`
lines 77-90): parse the from-date when its raw string is non-empty, then
the till-date step above. -/
def processOfficership (o : Officership) : Officership × Option ApiError :=
  if o.FromDateRaw = "" then
    processTill o
  else
    match timeParseYMD o.FromDateRaw with
    | some t => processTill { o with FromDate := t }
    | none => ({ o with FromDate := GoTime.zero }, some (.dateParse o.FromDateRaw))

/-- The whole loop: entries are processed in order; the first failure
stops processing and is returned together with the slice as mutated so
far (the entries after the failing one untouched). -/
def processOfficerships : List Officership → List Officership × Option ApiError
  | [] => ([], none)
  | o :: rest =>
    match processOfficership o with
    | (o2, none) =>
      let (rest2, e) := processOfficerships rest
      (o2 :: rest2, e)
    | (o2, some e) => (o2 :: rest, some e)

/-- `Session.GetUserOfficerships` from `user.go`: decode the array, then
run the date loop; the named results make the partially-processed slice
visible alongside the error.  A nil payload is dereferenced undiagnosed
(no nil check before `*data`). -/
def Session.GetUserOfficerships (s : Session) (id : Int) :
    GoReturn (List Officership) :=
  match s.apiRequest (userOfficershipsPath id) with
  | .fail msg => .ret [] (some (.transport msg))
  | .missing => .panicked
  | .payload .malformed => .ret [] (some (.decode .syntaxErr))
  | .payload (.json j) =>
    match officershipsFromJson j with
    | .error e => .ret [] (some (.decode e))
    | .ok l =>
      let (l2, e) := processOfficerships l
      .ret l2 e

/-! ## Helper lemmas about the scanner -/

theorem takeWhile_append_eq (p : Char → Bool) (xs ys : List Char)
    (hall : ∀ x ∈ xs, p x = true)
    (hy : ∀ y, ys.head? = some y → p y = false) :
    (xs ++ ys).takeWhile p = xs ∧ (xs ++ ys).dropWhile p = ys := by
  induction xs with
  | nil =>
    simp only [List.nil_append]
    cases ys with
    | nil => simp
    | cons y ys' =>
      have h := hy y rfl
      simp [List.takeWhile_cons, List.dropWhile_cons, h]
  | cons x xs ih =>
    have hx := hall x (List.mem_cons_self x xs)
    have ih' := ih (fun a ha => hall a (List.mem_cons_of_mem x ha))
    simp [List.takeWhile_cons, List.dropWhile_cons, hx, ih'.1, ih'.2]

theorem isDigit_goSpace_false {c : Char} (h : c.isDigit = true) :
    goSpace c = false := by
  by_contra hc
  have hg : goSpace c = true := by revert hc; cases goSpace c <;> simp
  unfold goSpace at hg
  simp only [Bool.or_eq_true, beq_iff_eq] at hg
  rcases hg with (((((e | e) | e) | e) | e) | e) <;>
    (subst e; exact absurd h (by decide))

theorem map_colon_id {ds : List Char} (h : ∀ c ∈ ds, c.isDigit = true) :
    ds.map (fun c => if c = ':' then ' ' else c) = ds := by
  induction ds with
  | nil => rfl
  | cons c cs ih =>
    have hc := h c (List.mem_cons_self c cs)
    have hne : c ≠ ':' := fun e => by subst e; exact absurd hc (by decide)
    simp only [List.map_cons, if_neg hne]
    rw [ih (fun a ha => h a (List.mem_cons_of_mem c ha))]

theorem dropWhile_goSpace_space (cs : List Char) :
    List.dropWhile goSpace (' ' :: cs) = List.dropWhile goSpace cs := by
  simp [List.dropWhile_cons, goSpace]

theorem scanUint64_cons_space (cs : List Char) :
    scanUint64 (' ' :: cs) = scanUint64 cs := by
  unfold scanUint64
  rw [dropWhile_goSpace_space]

theorem scanUint64_canon (ds rest : List Char) (hc : canonNumeral ds)
    (hb : digitsVal 10 ds < W64)
    (hr : rest = [] ∨ ∃ r, rest = ' ' :: r) :
    scanUint64 (ds ++ rest) = .ok (digitsVal 10 ds, rest) := by
  obtain ⟨hdig, hne, hz⟩ := hc
  cases ds with
  | nil => exact absurd rfl hne
  | cons d ds' =>
    have hd : d.isDigit = true := hdig d (List.mem_cons_self _ _)
    have hds : List.dropWhile goSpace (d :: (ds' ++ rest)) = d :: (ds' ++ rest) := by
      simp [List.dropWhile_cons, isDigit_goSpace_false hd]
    unfold scanUint64
    rw [List.cons_append, hds]
    by_cases h0 : d = '0'
    · subst h0
      have hnil : ds' = [] := by simpa using hz rfl
      subst hnil
      simp only [List.nil_append]
      rcases hr with hrest | ⟨r, hrest⟩ <;> subst hrest
      · simp [scanNum, scanZero, digitsVal, digitVal]
      · simp [scanNum, scanZero, rangeCheck, List.takeWhile_cons,
          List.dropWhile_cons, isOctDigit, digitsVal, digitVal, W64]
    · have hsplit := takeWhile_append_eq Char.isDigit (d :: ds') rest hdig
        (by rcases hr with hrest | ⟨r, hrest⟩ <;> subst hrest
            · intro y hy; exact absurd hy (by simp)
            · intro y hy
              simp only [List.head?_cons, Option.some.injEq] at hy
              subst hy; decide)
      simp only [scanNum, if_neg h0, if_pos hd]
      rw [← List.cons_append, hsplit.1, hsplit.2]
      unfold rangeCheck
      rw [if_pos hb]

theorem sscan3_canon (hd md sd : List Char)
    (h1 : canonNumeral hd) (h2 : canonNumeral md) (h3 : canonNumeral sd)
    (b1 : digitsVal 10 hd < W64) (b2 : digitsVal 10 md < W64)
    (b3 : digitsVal 10 sd < W64) :
    sscan3 ⟨hd ++ (' ' :: (md ++ (' ' :: sd)))⟩
      = .ok (digitsVal 10 hd, digitsVal 10 md, digitsVal 10 sd) := by
  have e1 : scanUint64 (hd ++ (' ' :: (md ++ (' ' :: sd))))
      = .ok (digitsVal 10 hd, ' ' :: (md ++ (' ' :: sd))) :=
    scanUint64_canon hd _ h1 b1 (Or.inr ⟨_, rfl⟩)
  have e2 : scanUint64 (' ' :: (md ++ (' ' :: sd))) = .ok (digitsVal 10 md, ' ' :: sd) := by
    rw [scanUint64_cons_space]
    exact scanUint64_canon md _ h2 b2 (Or.inr ⟨_, rfl⟩)
  have e3 : scanUint64 (' ' :: sd) = .ok (digitsVal 10 sd, []) := by
    rw [scanUint64_cons_space]
    have h := scanUint64_canon sd [] h3 b3 (Or.inl rfl)
    simpa using h
  simp [sscan3, e1, e2, e3, Bind.bind, Except.bind, Pure.pure, Except.pure]

theorem replaceColons_build (hd md sd : List Char)
    (h1 : ∀ c ∈ hd, c.isDigit = true) (h2 : ∀ c ∈ md, c.isDigit = true)
    (h3 : ∀ c ∈ sd, c.isDigit = true) :
    replaceColons ⟨hd ++ (':' :: (md ++ (':' :: sd)))⟩
      = ⟨hd ++ (' ' :: (md ++ (' ' :: sd)))⟩ := by
  unfold replaceColons
  apply congrArg String.mk
  simp [List.map_append, List.map_cons, map_colon_id h1, map_colon_id h2,
    map_colon_id h3]

theorem uint64_sum_formula (h m s : Nat) :
    ((h * 60 % W64 * 60 % W64 + m * 60 % W64) % W64 + s) % W64
      = (h * 3600 + m * 60 + s) % W64 := by
  unfold W64
  omega

/-- `LengthSec` on a track whose length is built from three canonical
decimal numerals: the scan succeeds and yields the wrapped sum. -/
theorem LengthSec_canon (hd md sd : List Char)
    (h1 : canonNumeral hd) (h2 : canonNumeral md) (h3 : canonNumeral sd)
    (b1 : digitsVal 10 hd < W64) (b2 : digitsVal 10 md < W64)
    (b3 : digitsVal 10 sd < W64) :
    Track.LengthSec (mkTrack ⟨hd ++ (':' :: (md ++ (':' :: sd)))⟩)
      = .ok ((digitsVal 10 hd * 3600 + digitsVal 10 md * 60 + digitsVal 10 sd) % W64) := by
  unfold Track.LengthSec
  have hlen : (mkTrack ⟨hd ++ (':' :: (md ++ (':' :: sd)))⟩).Length
      = ⟨hd ++ (':' :: (md ++ (':' :: sd)))⟩ := rfl
  rw [hlen, replaceColons_build hd md sd h1.1 h2.1 h3.1,
    sscan3_canon hd md sd h1 h2 h3 b1 b2 b3]
  simp only []
  rw [uint64_sum_formula]

/-! ## Helper lemmas about officership decoding and processing -/

theorem officershipFromJson_zero_of_wireOnly {x : Json} {o : Officership}
    (hw : officershipWireOnly x) (h : officershipFromJson x = .ok o) :
    o.FromDate = GoTime.zero ∧ o.TillDate = GoTime.zero := by
  cases x <;> simp only [officershipFromJson] at h
  case obj kvs =>
    have h1 : jFieldCI kvs "FromDate" = none := hw.1
    have h2 : jFieldCI kvs "TillDate" = none := hw.2
    simp only [h1, h2, decodeFieldD] at h
    repeat' split at h
    all_goals cases h
    exact ⟨rfl, rfl⟩
  all_goals cases h
  exact ⟨rfl, rfl⟩

theorem officershipsFromList_zero_of_wireOnly {es : List Json} {l : List Officership}
    (hw : ∀ x ∈ es, officershipWireOnly x) (h : officershipsFromList es = .ok l) :
    ∀ o ∈ l, o.FromDate = GoTime.zero ∧ o.TillDate = GoTime.zero := by
  induction es generalizing l with
  | nil =>
    simp only [officershipsFromList] at h
    cases h; intro o ho; exact absurd ho (by simp)
  | cons j rest ih =>
    simp only [officershipsFromList] at h
    split at h
    · exact absurd h (by simp)
    · split at h
      · exact absurd h (by simp)
      · cases h
        intro o ho
        rcases List.mem_cons.mp ho with he | hm
        · subst he
          exact officershipFromJson_zero_of_wireOnly
            (hw j (List.mem_cons_self j rest)) (by assumption)
        · exact ih (fun x hx => hw x (List.mem_cons_of_mem j hx)) (by assumption) o hm

theorem officershipsFromJson_zero_of_wireOnly {j : Json} {l : List Officership}
    (hw : officershipsWireOnly j) (h : officershipsFromJson j = .ok l) :
    ∀ o ∈ l, o.FromDate = GoTime.zero ∧ o.TillDate = GoTime.zero := by
  cases j <;> simp only [officershipsFromJson] at h
  case null => cases h; intro o ho; exact absurd ho (by simp)
  case arr es => exact officershipsFromList_zero_of_wireOnly hw h
  all_goals exact absurd h (by simp)

/-- The loop never writes the raw date strings: a processed entry keeps
them verbatim, whether the iteration fails or not. -/
theorem processOfficership_raw_unchanged (o : Officership) :
    (processOfficership o).1.FromDateRaw = o.FromDateRaw
    ∧ (processOfficership o).1.TillDateRaw = o.TillDateRaw := by
  cases o with
  | mk oid oname tid fraw fdate traw tdate =>
    unfold processOfficership processTill
    by_cases h1 : fraw = "" <;> by_cases h2 : traw = "" <;>
      cases hp : timeParseYMD fraw <;>
      simp_all

/-- A failing loop iteration leaves the entry unchanged, provided its
derived dates were still at their zero value (as decoding guarantees):
each failing `time.Parse` assignment writes the zero time back. -/
theorem processOfficership_fail_fix {o : Officership} {e : ApiError}
    (hf : o.FromDate = GoTime.zero) (ht : o.TillDate = GoTime.zero)
    (h : (processOfficership o).2 = some e) :
    (processOfficership o).1 = o := by
  cases o with
  | mk oid oname tid fraw fdate traw tdate =>
    simp only at hf ht
    subst hf; subst ht
    unfold processOfficership processTill at h ⊢
    by_cases h1 : fraw = "" <;> by_cases h2 : traw = "" <;>
      cases hp : timeParseYMD fraw <;>
      simp_all

theorem processOfficerships_partial (pre post : List Officership)
    (bad : Officership) (e : ApiError)
    (hpre : ∀ o ∈ pre, (processOfficership o).2 = none)
    (hbad : (processOfficership bad).2 = some e) :
    processOfficerships (pre ++ (bad :: post))
      = (pre.map (fun o => (processOfficership o).1)
          ++ ((processOfficership bad).1 :: post), some e) := by
  induction pre with
  | nil =>
    simp only [List.nil_append, List.map_nil]
    have hfix : processOfficership bad = ((processOfficership bad).1, some e) :=
      Prod.ext rfl hbad
    unfold processOfficerships
    rw [hfix]
  | cons o pre ih =>
    have ho := hpre o (List.mem_cons_self o pre)
    have hrest := ih (fun a ha => hpre a (List.mem_cons_of_mem o ha))
    have hfix : processOfficership o = ((processOfficership o).1, none) :=
      Prod.ext rfl ho
    simp only [List.cons_append, List.map_cons]
    unfold processOfficerships
    rw [hfix, hrest]

/-! ## The claims -/

/-- Claim C1, evaluated at a failing input (the code contradicts the
claim): on one entry with `from_date = "2020-01-01"` and `till_date =
"2021-05-06"`, `GetUserOfficerships` succeeds but stores the parse of the
FROM-date raw string into the derived till-date (`user.go` line 85 parses
`v.FromDateRaw` for the till-date): `TillDate` comes out as 2020-01-01,
although the till-date raw string itself parses to the different date
2021-05-06. -/
theorem GetUserOfficerships_till_parses_from_raw :
    (constSession (.payload (.json (.arr [.obj [("from_date", .str "2020-01-01"),
        ("till_date", .str "2021-05-06")]])))).GetUserOfficerships 1
      = .ret [{ OfficerId := 0, OfficerName := "", TeamId := 0,
                FromDateRaw := "2020-01-01", FromDate := ⟨2020, 1, 1, 0, 0, 0⟩,
                TillDateRaw := "2021-05-06", TillDate := ⟨2020, 1, 1, 0, 0, 0⟩ }] none
    ∧ timeParseYMD "2021-05-06" = some ⟨2021, 5, 6, 0, 0, 0⟩
    ∧ (⟨2020, 1, 1, 0, 0, 0⟩ : GoTime) ≠ ⟨2021, 5, 6, 0, 0, 0⟩ :=
  ⟨rfl, rfl, by decide⟩

/-- Claim C2: `GetUserBio` returns the "No bio set" error exactly when
the transport call succeeds with an absent payload, and a present payload
that is the JSON string `""` yields success with the empty string. -/
theorem GetUserBio_noBioSet_iff_missing (s : Session) (id : Int) :
    (s.GetUserBio id = .ret "" (some .noBioSet)
      ↔ s.apiRequest (userBioPath id) = .missing)
    ∧ (s.apiRequest (userBioPath id) = .payload (.json (.str "")) →
        s.GetUserBio id = .ret "" none) := by
  constructor
  · unfold Session.GetUserBio
    cases h : s.apiRequest (userBioPath id) with
    | fail msg => simp
    | missing => simp
    | payload p =>
      cases p with
      | malformed => simp
      | json j => cases hj : decodeString j <;> simp [hj]
  · intro hp
    unfold Session.GetUserBio
    rw [hp]
    rfl

/-- Witness for claim C2 at the concrete payload `""`. -/
theorem GetUserBio_noBioSet_iff_missing_witness :
    (constSession (.payload (.json (.str "")))).GetUserBio 1 = .ret "" none :=
  (GetUserBio_noBioSet_iff_missing (constSession (.payload (.json (.str "")))) 1).2 rfl

/-- Claim C3, counterexample: the claim promises `H*3600 + M*60 + S` for
every valid three-integer length, but the sum is computed in `uint64`
arithmetic; with H = 2^63 the scan succeeds and the product wraps to 0,
not `2^63 * 3600`. -/
theorem LengthSec_overflow_wraps :
    (mkTrack "9223372036854775808:0:0").LengthSec = .ok 0
    ∧ 9223372036854775808 * 3600 + 0 * 60 + 0 ≠ 0 :=
  ⟨rfl, by decide⟩

/-- Claim C3 as amended: for a length built from three canonical decimal
numerals (no redundant leading zeros) whose values fit in 64 bits,
`LengthSec` succeeds and returns `(H*3600 + M*60 + S) % 2^64`, which is
`H*3600 + M*60 + S` itself whenever that sum fits in 64 bits; the
spec's example `"1:02:03" = 3723` also holds (its leading zeros scan as
octal-prefixed tokens of the same value). -/
theorem LengthSec_valid_sum (hd md sd : List Char)
    (h1 : canonNumeral hd) (h2 : canonNumeral md) (h3 : canonNumeral sd)
    (b1 : digitsVal 10 hd < W64) (b2 : digitsVal 10 md < W64)
    (b3 : digitsVal 10 sd < W64) :
    (Track.LengthSec (mkTrack ⟨hd ++ (':' :: (md ++ (':' :: sd)))⟩)
        = .ok ((digitsVal 10 hd * 3600 + digitsVal 10 md * 60 + digitsVal 10 sd) % W64))
    ∧ (digitsVal 10 hd * 3600 + digitsVal 10 md * 60 + digitsVal 10 sd < W64 →
        Track.LengthSec (mkTrack ⟨hd ++ (':' :: (md ++ (':' :: sd)))⟩)
          = .ok (digitsVal 10 hd * 3600 + digitsVal 10 md * 60 + digitsVal 10 sd))
    ∧ (mkTrack "1:02:03").LengthSec = .ok 3723 := by
  have main := LengthSec_canon hd md sd h1 h2 h3 b1 b2 b3
  refine ⟨main, ?_, rfl⟩
  intro hlt
  rw [main, Nat.mod_eq_of_lt hlt]

/-- Witness for claim C3 at `"1:2:3"`. -/
theorem LengthSec_valid_sum_witness :
    Track.LengthSec (mkTrack ⟨['1'] ++ (':' :: (['2'] ++ (':' :: ['3'])))⟩)
      = .ok (digitsVal 10 ['1'] * 3600 + digitsVal 10 ['2'] * 60 + digitsVal 10 ['3']) :=
  (LengthSec_valid_sum ['1'] ['2'] ['3']
    ⟨by decide, by decide, by decide⟩ ⟨by decide, by decide, by decide⟩
    ⟨by decide, by decide, by decide⟩
    (by decide) (by decide) (by decide)).2.1 (by decide)

/-- Claim C4: `LengthSec` fails exactly when the colon-substituted length
string does not scan as three integers, and it fails on `"abc"` (no
integer at all) and on `"1:02"` (input exhausted before the third
integer). -/
theorem LengthSec_fails_iff_scan_fails :
    (∀ (t : Track) (e : ScanErr),
        t.LengthSec = .error e ↔ sscan3 (replaceColons t.Length) = .error e)
    ∧ (mkTrack "abc").LengthSec = .error .expectedInteger
    ∧ (mkTrack "1:02").LengthSec = .error .unexpectedEOF := by
  refine ⟨?_, rfl, rfl⟩
  intro t e
  unfold Track.LengthSec
  cases h : sscan3 (replaceColons t.Length) with
  | error e2 => simp
  | ok v => obtain ⟨vh, vm, vs⟩ := v; simp

/-- Witness for claim C4 at `"xyz"`. -/
theorem LengthSec_fails_iff_scan_fails_witness :
    (mkTrack "xyz").LengthSec = .error .expectedInteger :=
  (LengthSec_fails_iff_scan_fails.1 (mkTrack "xyz") .expectedInteger).mpr rfl

/-- Claim C5, counterexample: on a nil payload `GetUserName` does not
return a decode error — evaluating `*data` dereferences the nil pointer
and the call panics. -/
theorem GetUserName_nil_payload_counterexample :
    (constSession .missing).GetUserName 7 = .panicked := rfl

/-- Claim C5 as amended: when the transport call succeeds but returns a
nil payload, `GetUserName` (which indeed has no special case for absence)
dereferences the nil payload and panics with a nil-pointer dereference
instead of returning a decode error. -/
theorem GetUserName_nil_payload_panics (s : Session) (id : Int)
    (h : s.apiRequest (userNamePath id) = .missing) :
    s.GetUserName id = .panicked := by
  unfold Session.GetUserName
  rw [h]

/-- Witness for claim C5. -/
theorem GetUserName_nil_payload_panics_witness :
    (constSession .missing).GetUserName 3 = .panicked :=
  GetUserName_nil_payload_panics (constSession .missing) 3 rfl

/-- Claim C6: `GetUserProfilePhoto` turns a nil payload into the
"No profile picture set" error; on a successful decode the derived date
equals the `02/01/2006 15:04` parse of the raw date-added string (so
`"15/06/2021 13:45"` gives 2021-06-15 13:45), and an unparseable raw
date string fails the call with that parse error. -/
theorem GetUserProfilePhoto_spec (s : Session) (id : Int) :
    (s.apiRequest (userProfilePhotoPath id) = .missing →
      s.GetUserProfilePhoto id = .ret Photo.zero (some .noProfilePicture))
    ∧ (∀ j p, s.apiRequest (userProfilePhotoPath id) = .payload (.json j) →
        photoFromJson j = .ok p →
        (∀ t, timeParseDMYHM p.DateAddedRaw = some t →
          s.GetUserProfilePhoto id = .ret { p with DateAdded := t } none)
        ∧ (timeParseDMYHM p.DateAddedRaw = none →
          s.GetUserProfilePhoto id = .ret { p with DateAdded := GoTime.zero }
            (some (.dateParse p.DateAddedRaw))))
    ∧ timeParseDMYHM "15/06/2021 13:45" = some ⟨2021, 6, 15, 13, 45, 0⟩ := by
  refine ⟨?_, ?_, rfl⟩
  · intro h
    unfold Session.GetUserProfilePhoto
    rw [h]
  · intro j p hresp hdec
    constructor
    · intro t ht
      simp only [Session.GetUserProfilePhoto, hresp, hdec, ht]
    · intro ht
      simp only [Session.GetUserProfilePhoto, hresp, hdec, ht]

/-- Witness for claim C6 at a concrete photo payload. -/
theorem GetUserProfilePhoto_spec_witness :
    (constSession (.payload (.json (.obj [("photoid", .num 1),
        ("date_added", .str "15/06/2021 13:45"), ("format", .str "jpg"),
        ("owner", .num 2), ("url", .str "u")])))).GetUserProfilePhoto 1
      = .ret ⟨1, "15/06/2021 13:45", ⟨2021, 6, 15, 13, 45, 0⟩, "jpg", 2, "u"⟩ none :=
  ((GetUserProfilePhoto_spec (constSession (.payload (.json (.obj [("photoid", .num 1),
        ("date_added", .str "15/06/2021 13:45"), ("format", .str "jpg"),
        ("owner", .num 2), ("url", .str "u")])))) 1).2.1
      (.obj [("photoid", .num 1), ("date_added", .str "15/06/2021 13:45"),
        ("format", .str "jpg"), ("owner", .num 2), ("url", .str "u")])
      ⟨1, "15/06/2021 13:45", GoTime.zero, "jpg", 2, "u"⟩ rfl rfl).1
    ⟨2021, 6, 15, 13, 45, 0⟩ rfl

/-- Claim C7, counterexample: the claim promises `LengthSec * 1,000,000`,
but the product is a `uint64` product; a track of 10^13 hours has
`LengthSec = 3.6*10^16`, yet `LengthUsec` returns that value times 10^6
reduced mod 2^64, which differs from the plain product. -/
theorem LengthUsec_overflow_wraps :
    (mkTrack "10000000000000:0:0").LengthSec = .ok 36000000000000000
    ∧ (mkTrack "10000000000000:0:0").LengthUsec = .ok (36000000000000000000000 % W64)
    ∧ 36000000000000000000000 % W64 ≠ 36000000000000000 * 1000000 :=
  ⟨rfl, rfl, by decide⟩

/-- Claim C7 as amended: when `LengthSec` succeeds with `secs`,
`LengthUsec` succeeds with `secs * 1,000,000 % 2^64` — the plain product
whenever it fits in 64 bits — and when `LengthSec` fails, `LengthUsec`
returns exactly the same error. -/
theorem LengthUsec_spec (t : Track) :
    (∀ secs, t.LengthSec = .ok secs →
        t.LengthUsec = .ok (secs * 1000000 % W64)
        ∧ (secs * 1000000 < W64 → t.LengthUsec = .ok (secs * 1000000)))
    ∧ (∀ e, t.LengthSec = .error e → t.LengthUsec = .error e) := by
  constructor
  · intro secs h
    constructor
    · unfold Track.LengthUsec
      rw [h]
    · intro hlt
      unfold Track.LengthUsec
      rw [h]
      show Except.ok (secs * 1000000 % W64) = _
      rw [Nat.mod_eq_of_lt hlt]
  · intro e h
    unfold Track.LengthUsec
    rw [h]

/-- Witness for claim C7 at `"0:1:1"`. -/
theorem LengthUsec_spec_witness :
    (mkTrack "0:1:1").LengthUsec = .ok 61000000 :=
  ((LengthUsec_spec (mkTrack "0:1:1")).1 61 rfl).2 (by decide)

/-- Claim C8, counterexample: the claim promises `Intro * 1,000,000` for
every non-negative `Intro`, but the product is a `uint64` product; at
`Intro = 2^63` it wraps to 0. -/
theorem IntroUsec_overflow_wraps :
    (mkTrackIntro 9223372036854775808).IntroUsec = 0
    ∧ 9223372036854775808 * 1000000 ≠ 0 :=
  ⟨rfl, by decide⟩

/-- Claim C8 as amended: `IntroUsec` always succeeds (it is a total
function with no error path) and returns `Intro * 1,000,000 % 2^64`,
which is the plain product `Intro * 1,000,000` whenever that product
fits in 64 bits. -/
theorem IntroUsec_spec (t : Track) :
    t.IntroUsec = t.Intro * 1000000 % W64
    ∧ (t.Intro * 1000000 < W64 → t.IntroUsec = t.Intro * 1000000) := by
  refine ⟨rfl, ?_⟩
  intro h
  unfold Track.IntroUsec
  rw [Nat.mod_eq_of_lt h]

/-- Witness for claim C8 at `Intro = 5`. -/
theorem IntroUsec_spec_witness :
    (mkTrackIntro 5).IntroUsec = 5 * 1000000 :=
  (IntroUsec_spec (mkTrackIntro 5)).2 (by decide)

/-- Claim C9: `GetTrack`, `GetTrackTitle` and `GetTrackAlbum` each issue
exactly one request, to `/track/{id}`, `/track/{id}/title` and
`/track/{id}/album` respectively, and each returns the decode failure of
a malformed payload unchanged as its error. -/
theorem track_getters_requests (s : Session) (trackid : Nat) :
    (s.GetTrack trackid).2 = [trackPath trackid]
    ∧ (s.GetTrackTitle trackid).2 = [trackTitlePath trackid]
    ∧ (s.GetTrackAlbum trackid).2 = [trackAlbumPath trackid]
    ∧ (s.apiRequest (trackPath trackid) = .payload .malformed →
        (s.GetTrack trackid).1 = .error (.decode .syntaxErr))
    ∧ (s.apiRequest (trackTitlePath trackid) = .payload .malformed →
        (s.GetTrackTitle trackid).1 = .error (.decode .syntaxErr))
    ∧ (s.apiRequest (trackAlbumPath trackid) = .payload .malformed →
        (s.GetTrackAlbum trackid).1 = .error (.decode .syntaxErr)) := by
  refine ⟨rfl, rfl, rfl, ?_, ?_, ?_⟩ <;>
    (intro h
     simp only [Session.GetTrack, Session.GetTrackTitle, Session.GetTrackAlbum, h])

/-- Witness for claim C9 with a malformed payload. -/
theorem track_getters_requests_witness :
    ((constSession (.payload .malformed)).GetTrack 5).1 = .error (.decode .syntaxErr)
    ∧ ((constSession (.payload .malformed)).GetTrack 5).2 = [trackPath 5] :=
  ⟨(track_getters_requests (constSession (.payload .malformed)) 5).2.2.2.1 rfl,
   (track_getters_requests (constSession (.payload .malformed)) 5).1⟩

/-- Claim C10, counterexample: the claim says failing entries keep
zero-value derived dates, but `encoding/json` fills the untagged
`FromDate` field from a payload key matching that Go field name.  The
payload `[{"FromDate": "2021-07-08T09:10:00Z", "till_date": "nope"}]`
decodes an entry with a nonzero derived from-date and an empty raw
from-date; the till-date step then parses that empty raw string and
fails, and the failing entry is returned with its derived from-date
still nonzero. -/
theorem GetUserOfficerships_failing_entry_nonzero_derived :
    (constSession (.payload (.json (.arr [.obj [("FromDate",
        .str "2021-07-08T09:10:00Z"),
        ("till_date", .str "nope")]])))).GetUserOfficerships 1
      = .ret [{ OfficerId := 0, OfficerName := "", TeamId := 0,
                FromDateRaw := "", FromDate := ⟨2021, 7, 8, 9, 10, 0⟩,
                TillDateRaw := "nope", TillDate := GoTime.zero }]
          (some (.dateParse ""))
    ∧ (⟨2021, 7, 8, 9, 10, 0⟩ : GoTime) ≠ GoTime.zero :=
  ⟨rfl, by decide⟩

/-- Claim C10 as amended: when the date loop of `GetUserOfficerships`
fails on an entry, the function is not atomic: the named results return
the error together with the full decoded slice, in which the entries
before the failing one carry their normalized derived dates, the failing
entry keeps its raw strings verbatim (only the failed parse's target
field is written, with the zero time), and the later entries are exactly
as decoded.  When the payload's entries use only the documented wire keys
— no key matching the untagged `FromDate`/`TillDate` field names — the
failing entry is returned exactly as decoded and the failing and later
entries' derived dates are at their zero value; a key matching an
untagged field name, however, is decoded into the derived date, which
the failure does not reset (see the counterexample). -/
theorem GetUserOfficerships_partial_on_failure (s : Session) (id : Int)
    (j : Json) (pre post : List Officership) (bad : Officership) (e : ApiError)
    (hresp : s.apiRequest (userOfficershipsPath id) = .payload (.json j))
    (hdec : officershipsFromJson j = .ok (pre ++ (bad :: post)))
    (hpre : ∀ o ∈ pre, (processOfficership o).2 = none)
    (hbad : (processOfficership bad).2 = some e) :
    s.GetUserOfficerships id
      = .ret (pre.map (fun o => (processOfficership o).1)
          ++ ((processOfficership bad).1 :: post)) (some e)
    ∧ (processOfficership bad).1.FromDateRaw = bad.FromDateRaw
    ∧ (processOfficership bad).1.TillDateRaw = bad.TillDateRaw
    ∧ (officershipsWireOnly j →
        (processOfficership bad).1 = bad
        ∧ ∀ o ∈ bad :: post, o.FromDate = GoTime.zero ∧ o.TillDate = GoTime.zero) := by
  have hloop := processOfficerships_partial pre post bad e hpre hbad
  refine ⟨?_, (processOfficership_raw_unchanged bad).1,
    (processOfficership_raw_unchanged bad).2, ?_⟩
  · simp only [Session.GetUserOfficerships, hresp, hdec, hloop]
  · intro hw
    have hz := officershipsFromJson_zero_of_wireOnly hw hdec
    have hzb := hz bad (List.mem_append_right pre (List.mem_cons_self bad post))
    exact ⟨processOfficership_fail_fix hzb.1 hzb.2 hbad,
      fun o ho => hz o (List.mem_append_right pre ho)⟩

/-- Witness for claim C10 at a one-entry wire-key payload whose
from-date does not parse. -/
theorem GetUserOfficerships_partial_on_failure_witness :
    (constSession (.payload (.json (.arr [.obj [("from_date",
        .str "nope")]])))).GetUserOfficerships 1
      = .ret [{ OfficerId := 0, OfficerName := "", TeamId := 0,
                FromDateRaw := "nope", FromDate := GoTime.zero,
                TillDateRaw := "", TillDate := GoTime.zero }]
          (some (.dateParse "nope")) :=
  (GetUserOfficerships_partial_on_failure
    (constSession (.payload (.json (.arr [.obj [("from_date", .str "nope")]])))) 1
    (.arr [.obj [("from_date", .str "nope")]]) [] []
    ⟨0, "", 0, "nope", GoTime.zero, "", GoTime.zero⟩ (.dateParse "nope")
    rfl rfl (fun o ho => absurd ho (List.not_mem_nil o)) rfl).1

end Myradio
